import Mathlib

/-!
Verification development for the synchronization core of holochain-rust
(CAS storage, EAV storage, EntryAspect model, aspect aggregation, and the
network message router), shallowly embedded from
`core_types/src/cas/storage.rs`, `core/src/network/entry_aspect.rs` and
`core/src/network/handler/mod.rs`.
-/

namespace Holochain

/-- Addresses are deterministic content-hash identifiers; equality is byte
equality, so we model them as strings. -/
abbrev Address := String

/-- JSON values, modelling `JsonString` contents after parsing.  Serialized
`Content` is an opaque byte sequence holding JSON, so we work at the level of
the parsed tree; undecodable payloads are any tree that the relevant decoder
rejects. -/
inductive Json where
  | str (s : String)
  | num (n : Nat)
  | arr (l : List Json)

/-- Content stored in the CAS (`Content = JsonString` in the source). -/
abbrev Content := Json

/-! ## Example CAS (`core_types/src/cas/storage.rs`)

`ExampleContentAddressableStorageActor` keeps a `HashMap<Address, Content>`.
We model the hash map as an association list with replace-on-insert
semantics (`HashMap::insert`), and the actor system as a map from actor ids
to actor storage state.  A CAS handle (`ExampleContentAddressableStorage`)
holds an `ActorRef`; `#[derive(Clone)]` clones the reference, and cloned
actor references point to the same actor with the same internal state, so
`clone` on a handle is the identity on the actor id it wraps. -/

/-- `HashMap::insert`: stores the key/value pair, replacing any previous
value at the key. -/
def hmInsert (k : Address) (v : Content) (m : List (Address × Content)) :
    List (Address × Content) :=
  (k, v) :: m.filter (fun p => p.1 ≠ k)

/-- `HashMap::get(..).cloned()`. -/
def hmGet (k : Address) (m : List (Address × Content)) : Option Content :=
  (m.find? (fun p => p.1 = k)).map (fun p => p.2)

/-- `HashMap::contains_key`. -/
def hmContains (k : Address) (m : List (Address × Content)) : Bool :=
  m.any (fun p => p.1 = k)

/-- Errors of the core (`HolochainError`); only the variants used by the
embedded code are modelled. -/
inductive HolochainError where
  | EntryNotFoundLocally
  | EntryIsPrivate
  | ErrorGeneric (message : String)
  | Timeout
deriving DecidableEq, Repr

/-- An actor id inside the actor system (`ActorRef<Protocol>` points to the
actor registered under this id). -/
abbrev ActorId := Nat

/-- `ExampleContentAddressableStorage` — a CAS handle wrapping an actor
reference. -/
structure ExampleCas where
  actor : ActorId
deriving DecidableEq, Repr

/-- State of the whole actor system: each actor id owns the `HashMap`
of its `ExampleContentAddressableStorageActor`. -/
abbrev ActorSys := ActorId → List (Address × Content)

/-- Update one actor's state in the system. -/
def sysUpdate (sys : ActorSys) (id : ActorId)
    (f : List (Address × Content) → List (Address × Content)) : ActorSys :=
  fun i => if i = id then f (sys i) else sys i

/-- `#[derive(Clone)]` on `ExampleContentAddressableStorage` clones the
`ActorRef`; cloned references point to the same actor, so the clone wraps
the same actor id. -/
def ExampleCas.clone (cas : ExampleCas) : ExampleCas := cas

/-- `ExampleContentAddressableStorageActor::unthreadable_add`: inserts the
pair into the backing map and always returns `Ok(())`.  The handle's `add`
sends `CasAdd(content.address(), content.content())` to the actor and
relays the result.  `hash` is the deterministic `AddressableContent`
address function. -/
def ExampleCas.add (hash : Content → Address) (sys : ActorSys)
    (cas : ExampleCas) (content : Content) :
    ActorSys × Except HolochainError Unit :=
  (sysUpdate sys cas.actor (hmInsert (hash content) content), Except.ok ())

/-- `unthreadable_contains` via the handle's `contains`. -/
def ExampleCas.contains (sys : ActorSys) (cas : ExampleCas) (a : Address) :
    Except HolochainError Bool :=
  Except.ok (hmContains a (sys cas.actor))

/-- `unthreadable_fetch` via the handle's `fetch` (the raw stored
`Content`; `AC::from_content` reconstructs the typed value from it). -/
def ExampleCas.fetch (sys : ActorSys) (cas : ExampleCas) (a : Address) :
    Except HolochainError (Option Content) :=
  Except.ok (hmGet a (sys cas.actor))

/-! Basic facts about the hash-map model. -/

theorem hmGet_insert_self (k : Address) (v : Content)
    (m : List (Address × Content)) : hmGet k (hmInsert k v m) = some v := by
  simp [hmGet, hmInsert, List.find?]

theorem hmContains_insert_self (k : Address) (v : Content)
    (m : List (Address × Content)) : hmContains k (hmInsert k v m) = true := by
  simp [hmContains, hmInsert]

theorem hmInsert_idem (k : Address) (v : Content)
    (m : List (Address × Content)) :
    hmInsert k v (hmInsert k v m) = hmInsert k v m := by
  simp [hmInsert, List.filter_filter]

theorem sysUpdate_same (sys : ActorSys) (id : ActorId)
    (f g : List (Address × Content) → List (Address × Content)) :
    sysUpdate (sysUpdate sys id f) id g = sysUpdate sys id (fun s => g (f s)) := by
  funext i
  simp only [sysUpdate]
  by_cases h : i = id <;> simp [h]

theorem sysUpdate_apply_self (sys : ActorSys) (id : ActorId)
    (f : List (Address × Content) → List (Address × Content)) :
    sysUpdate sys id f id = f (sys id) := by
  simp [sysUpdate]

/-- C3: for all content `c` added through any CAS handle, every handle cloned
from it returns `Ok(true)` from `contains` at the content's address and
`Ok(Some c)` from `fetch` once the add has completed; and cloning a handle
yields shared ownership of the same underlying actor (the clone is the same
handle, not a copy). -/
theorem C3_cas_clone_shared_view (hash : Content → Address) (sys : ActorSys)
    (cas : ExampleCas) (c : Content) :
    (ExampleCas.add hash sys cas c).2 = Except.ok () ∧
    ExampleCas.contains (ExampleCas.add hash sys cas c).1 cas.clone (hash c) =
      Except.ok true ∧
    ExampleCas.fetch (ExampleCas.add hash sys cas c).1 cas.clone (hash c) =
      Except.ok (some c) ∧
    cas.clone = cas := by
  refine ⟨rfl, ?_, ?_, rfl⟩
  · simp [ExampleCas.contains, ExampleCas.add, ExampleCas.clone,
      sysUpdate_apply_self, hmContains_insert_self]
  · simp [ExampleCas.fetch, ExampleCas.add, ExampleCas.clone,
      sysUpdate_apply_self, hmGet_insert_self]

/-- C5: adding the same content twice to the example CAS is idempotent — the
actor-system state after the second add equals the state after the first,
the second add also returns `Ok(())`, and hence every subsequent
`contains`/`fetch` result is unaffected by the duplicate add. -/
theorem C5_duplicate_add_idempotent (hash : Content → Address) (sys : ActorSys)
    (cas : ExampleCas) (c : Content) :
    ExampleCas.add hash (ExampleCas.add hash sys cas c).1 cas c =
      ((ExampleCas.add hash sys cas c).1, Except.ok ()) ∧
    (∀ (h : ExampleCas) (a : Address),
      ExampleCas.contains (ExampleCas.add hash (ExampleCas.add hash sys cas c).1 cas c).1 h a =
        ExampleCas.contains (ExampleCas.add hash sys cas c).1 h a ∧
      ExampleCas.fetch (ExampleCas.add hash (ExampleCas.add hash sys cas c).1 cas c).1 h a =
        ExampleCas.fetch (ExampleCas.add hash sys cas c).1 h a) := by
  have hstate : ExampleCas.add hash (ExampleCas.add hash sys cas c).1 cas c =
      ((ExampleCas.add hash sys cas c).1, Except.ok ()) := by
    simp only [ExampleCas.add, sysUpdate_same]
    refine congrArg (fun s => (s, Except.ok ())) ?_
    refine congrArg (sysUpdate sys cas.actor) ?_
    funext s
    exact hmInsert_idem (hash c) c s
  refine ⟨hstate, fun h a => ?_⟩
  rw [hstate]
  exact ⟨rfl, rfl⟩

/-- C10: in the example CAS, `add` always returns `Ok` and unconditionally
inserts `(address, content)` into the backing map: adding different content
under an already-present address replaces the stored content (last write
wins) — the store itself never fails an add and does not enforce the
append-only rule. -/
theorem C10_add_always_ok_last_write_wins (hash : Content → Address)
    (sys : ActorSys) (cas : ExampleCas) (c0 c : Content)
    (hcollide : hash c0 = hash c) (hne : c0 ≠ c) :
    (ExampleCas.add hash sys cas c0).2 = Except.ok () ∧
    (ExampleCas.add hash (ExampleCas.add hash sys cas c0).1 cas c).2 =
      Except.ok () ∧
    ExampleCas.fetch
      (ExampleCas.add hash (ExampleCas.add hash sys cas c0).1 cas c).1 cas
      (hash c0) = Except.ok (some c) ∧
    some c ≠ some c0 := by
  refine ⟨rfl, rfl, ?_, by simpa using fun hc => hne hc.symm⟩
  rw [hcollide]
  simp [ExampleCas.fetch, ExampleCas.add, sysUpdate_apply_self,
    hmGet_insert_self]

/-- Witness for C10 at a concrete colliding pair of contents. -/
theorem C10_add_always_ok_last_write_wins_witness :
    ((fun _ => "addr") : Content → Address) (Json.str "x") =
      ((fun _ => "addr") : Content → Address) (Json.str "y") ∧
    Json.str "x" ≠ Json.str "y" ∧
    ExampleCas.fetch
      (ExampleCas.add (fun _ => "addr")
        (ExampleCas.add (fun _ => "addr") (fun _ => []) ⟨0⟩ (Json.str "x")).1
        ⟨0⟩ (Json.str "y")).1 ⟨0⟩ "addr" = Except.ok (some (Json.str "y")) := by
  have hne : Json.str "x" ≠ Json.str "y" := by simp
  exact ⟨rfl, hne,
    (C10_add_always_ok_last_write_wins (fun _ => "addr") (fun _ => []) ⟨0⟩
      (Json.str "x") (Json.str "y") rfl hne).2.2.1⟩

/-! ## EAV store (`core_types/src/eav`, exercised by `EavTestSuite`)

The `EntityAttributeValueStorage` implementation itself is not among the
provided sources; only its test suites in `cas/storage.rs` are.  We model it
from the spec (§4.2). -/

/-- An EAV triple as constructed by `EntityAttributeValue::new(&entity,
&attribute, &value)` in `cas/storage.rs`: entity and value are addresses and
the attribute is a string. -/
structure EntityAttributeValue where
  entity : Address
  attr : String
  value : Address
deriving DecidableEq, Repr

/-- Does a triple satisfy every constrained field of a query?  `none` means
unconstrained on that field; constrained fields must match exactly
(conjunction). -/
def eavMatches (e : Option Address) (a : Option String) (v : Option Address)
    (eav : EntityAttributeValue) : Bool :=
  (match e with
   | none => true
   | some e' => eav.entity = e') &&
  (match a with
   | none => true
   | some a' => eav.attr = a') &&
  (match v with
   | none => true
   | some v' => eav.value = v')

/-- Modelled from the spec: the `EntityAttributeValueStorage` implementation
(the `eav` module) is not among the provided sources; per §4.2 `add_eav` is
an idempotent insert of an immutable triple into the stored set. -/
def add_eav (store : List EntityAttributeValue) (eav : EntityAttributeValue) :
    Except HolochainError (List EntityAttributeValue) :=
  Except.ok (if eav ∈ store then store else store ++ [eav])

/-- Modelled from the spec: the `EntityAttributeValueStorage` implementation
(the `eav` module) is not among the provided sources; per §4.2 `fetch_eav`
takes each of entity/attribute/value optionally constrained and returns the
set of all stored triples matching every constrained field exactly, never an
error. -/
def fetch_eav (store : List EntityAttributeValue) (e : Option Address)
    (a : Option String) (v : Option Address) :
    Except HolochainError (List EntityAttributeValue) :=
  Except.ok (store.filter (eavMatches e a v))

/-- C4: `fetch_eav` returns exactly the stored triples matching all
constrained fields (conjunction); the fully-unconstrained query returns all
stored triples; a query matching nothing returns the empty set, and the
query never returns an error. -/
theorem C4_fetch_eav_conjunction (store : List EntityAttributeValue)
    (e : Option Address) (a : Option String) (v : Option Address) :
    (∃ result, fetch_eav store e a v = Except.ok result ∧
      ∀ eav, eav ∈ result ↔ eav ∈ store ∧ eavMatches e a v eav = true) ∧
    fetch_eav store none none none = Except.ok store ∧
    ((∀ eav ∈ store, eavMatches e a v eav = false) →
      fetch_eav store e a v = Except.ok []) := by
  refine ⟨⟨store.filter (eavMatches e a v), rfl, fun eav => ?_⟩, ?_, fun hnone => ?_⟩
  · simp [List.mem_filter]
  · simp [fetch_eav, eavMatches]
  · simp only [fetch_eav, Except.ok.injEq]
    rw [List.filter_eq_nil_iff]
    intro eav heav
    simp [hnone eav heav]

/-- Witness for C4 on a concrete store and query. -/
theorem C4_fetch_eav_conjunction_witness :
    fetch_eav [⟨"e1", "one_to_many", "v1"⟩, ⟨"e2", "one_to_many", "v2"⟩]
      none none none =
      Except.ok [⟨"e1", "one_to_many", "v1"⟩, ⟨"e2", "one_to_many", "v2"⟩] ∧
    ((∀ eav ∈ ([⟨"e1", "one_to_many", "v1"⟩] : List EntityAttributeValue),
        eavMatches (some "zzz") none none eav = false) →
      fetch_eav [⟨"e1", "one_to_many", "v1"⟩] (some "zzz") none none =
        Except.ok []) := by
  exact ⟨(C4_fetch_eav_conjunction
      [⟨"e1", "one_to_many", "v1"⟩, ⟨"e2", "one_to_many", "v2"⟩]
      none none none).2.1,
    (C4_fetch_eav_conjunction [⟨"e1", "one_to_many", "v1"⟩]
      (some "zzz") none none).2.2⟩

/-! ## EntryAspect model (`core/src/network/entry_aspect.rs`)

The payload types `Entry`, `ChainHeader`, `LinkData` and the timestamp live
in crates whose sources are not provided; they are modelled here with the
fields the provided code reads.  Serde serialization of these types (derived
`Serialize`/`Deserialize` into `JsonString`) is likewise modelled by a
concrete deterministic codec into the `Json` tree. -/

/-- Modelled from the spec: the timestamp type (`holochain_core_types::time`)
is not among the provided sources; per §3/§6 a header timestamp converts to
a date-time whose `timestamp()` is its whole-second part (`publish_ts:
unsigned integer seconds`). -/
structure Timestamp where
  secs : Nat
  nanos : Nat
deriving DecidableEq, Repr

/-- A link as built by `Link::new(&base, &target, type, tag)`. -/
structure Link where
  base : Address
  target : Address
  link_type : String
  tag : String
deriving DecidableEq, Repr

/-- `LinkData` — the canonical link record carried by link-add/link-remove
entries; the provided code reads its `link` field. -/
structure LinkData where
  action_kind : String
  link : Link
deriving DecidableEq, Repr

/-- `ChainHeader` — provenance record: the provided code reads
`entry_type()`, `timestamp()` and `link_update_delete()`. -/
structure ChainHeader where
  entry_type : String
  timestamp : Timestamp
  link_update_delete : Option Address
deriving DecidableEq, Repr

/-- `Entry` — the provided code matches on the `LinkAdd` and `LinkRemove`
specialisations; application entries carry their type name and a JSON
value. -/
inductive Entry where
  | app (app_type : String) (value : Json)
  | linkAdd (link_data : LinkData)
  | linkRemove (link_data : LinkData) (removed : List Address)

/-- `Entry::entry_type()`, with entry types rendered by name. -/
def Entry.entry_type : Entry → String
  | .app t _ => t
  | .linkAdd _ => "%link_add"
  | .linkRemove _ _ => "%link_remove"

/-- `EntryAspect` — everything a peer can assert about an entry address
(entry_aspect.rs). -/
inductive EntryAspect where
  | Content (entry : Entry) (header : ChainHeader)
  | Header (header : ChainHeader)
  | LinkAdd (link_data : LinkData) (header : ChainHeader)
  | LinkRemove (p : LinkData × List Address) (header : ChainHeader)
  | Update (entry : Entry) (header : ChainHeader)
  | Deletion (header : ChainHeader)

/-- `EntryAspect::type_hint()`. -/
def EntryAspect.type_hint : EntryAspect → String
  | .Content _ _ => "content"
  | .Header _ => "header"
  | .LinkAdd _ _ => "link_add"
  | .LinkRemove _ _ => "link_remove"
  | .Update _ _ => "update"
  | .Deletion _ => "deletion"

/-- `EntryAspect::header()`. -/
def EntryAspect.header : EntryAspect → ChainHeader
  | .Content _ h => h
  | .Header h => h
  | .LinkAdd _ h => h
  | .LinkRemove _ h => h
  | .Update _ h => h
  | .Deletion h => h

/-! Deterministic codec modelling the derived serde round trip
(`EntryAspect → JsonString` and `EntryAspect::try_from`). -/

def encodeOptStr : Option String → Json
  | none => Json.arr []
  | some s => Json.arr [Json.str s]

def decodeOptStr : Json → Option (Option String)
  | Json.arr [] => some none
  | Json.arr [Json.str s] => some (some s)
  | _ => none

def encodeLink (l : Link) : Json :=
  Json.arr [Json.str l.base, Json.str l.target, Json.str l.link_type,
    Json.str l.tag]

def decodeLink : Json → Option Link
  | Json.arr [Json.str b, Json.str t, Json.str lt, Json.str tg] =>
      some ⟨b, t, lt, tg⟩
  | _ => none

def encodeLinkData (ld : LinkData) : Json :=
  Json.arr [Json.str ld.action_kind, encodeLink ld.link]

def decodeLinkData : Json → Option LinkData
  | Json.arr [Json.str ak, j] => (decodeLink j).map (fun l => ⟨ak, l⟩)
  | _ => none

def encodeHeader (h : ChainHeader) : Json :=
  Json.arr [Json.str h.entry_type, Json.num h.timestamp.secs,
    Json.num h.timestamp.nanos, encodeOptStr h.link_update_delete]

def decodeHeader : Json → Option ChainHeader
  | Json.arr [Json.str et, Json.num s, Json.num n, j] =>
      (decodeOptStr j).map (fun lud => ⟨et, ⟨s, n⟩, lud⟩)
  | _ => none

def decodeStrList : List Json → Option (List String)
  | [] => some []
  | Json.str s :: rest => (decodeStrList rest).map (fun l => s :: l)
  | _ => none

def encodeEntry : Entry → Json
  | .app t v => Json.arr [Json.str "App", Json.str t, v]
  | .linkAdd ld => Json.arr [Json.str "LinkAdd", encodeLinkData ld]
  | .linkRemove ld addrs =>
      Json.arr [Json.str "LinkRemove", encodeLinkData ld,
        Json.arr (addrs.map Json.str)]

def decodeEntry : Json → Option Entry
  | Json.arr [Json.str "App", Json.str t, v] => some (.app t v)
  | Json.arr [Json.str "LinkAdd", j] => (decodeLinkData j).map .linkAdd
  | Json.arr [Json.str "LinkRemove", j, Json.arr addrs] =>
      match decodeLinkData j, decodeStrList addrs with
      | some ld, some l => some (.linkRemove ld l)
      | _, _ => none
  | _ => none

def encodeAspect : EntryAspect → Json
  | .Content e h => Json.arr [Json.str "Content", encodeEntry e, encodeHeader h]
  | .Header h => Json.arr [Json.str "Header", encodeHeader h]
  | .LinkAdd ld h =>
      Json.arr [Json.str "LinkAdd", encodeLinkData ld, encodeHeader h]
  | .LinkRemove (ld, addrs) h =>
      Json.arr [Json.str "LinkRemove", encodeLinkData ld,
        Json.arr (addrs.map Json.str), encodeHeader h]
  | .Update e h => Json.arr [Json.str "Update", encodeEntry e, encodeHeader h]
  | .Deletion h => Json.arr [Json.str "Deletion", encodeHeader h]

def decodeAspect : Json → Option EntryAspect
  | Json.arr [Json.str "Content", je, jh] =>
      match decodeEntry je, decodeHeader jh with
      | some e, some h => some (.Content e h)
      | _, _ => none
  | Json.arr [Json.str "Header", jh] => (decodeHeader jh).map .Header
  | Json.arr [Json.str "LinkAdd", jl, jh] =>
      match decodeLinkData jl, decodeHeader jh with
      | some ld, some h => some (.LinkAdd ld h)
      | _, _ => none
  | Json.arr [Json.str "LinkRemove", jl, Json.arr addrs, jh] =>
      match decodeLinkData jl, decodeStrList addrs, decodeHeader jh with
      | some ld, some l, some h => some (.LinkRemove (ld, l) h)
      | _, _, _ => none
  | Json.arr [Json.str "Update", je, jh] =>
      match decodeEntry je, decodeHeader jh with
      | some e, some h => some (.Update e h)
      | _, _ => none
  | Json.arr [Json.str "Deletion", jh] => (decodeHeader jh).map .Deletion
  | _ => none

theorem decodeLink_encodeLink (l : Link) : decodeLink (encodeLink l) = some l := by
  cases l
  rfl

theorem decodeLinkData_encodeLinkData (ld : LinkData) :
    decodeLinkData (encodeLinkData ld) = some ld := by
  cases ld with
  | mk ak l =>
    cases l
    rfl

theorem decodeHeader_encodeHeader (h : ChainHeader) :
    decodeHeader (encodeHeader h) = some h := by
  obtain ⟨et, ⟨s, n⟩, lud⟩ := h
  cases lud <;> rfl

theorem decodeStrList_map_str (l : List String) :
    decodeStrList (l.map Json.str) = some l := by
  induction l with
  | nil => rfl
  | cons s rest ih => simp [decodeStrList, ih]

theorem decodeEntry_encodeEntry (e : Entry) :
    decodeEntry (encodeEntry e) = some e := by
  cases e with
  | app t v => rfl
  | linkAdd ld =>
    simp [encodeEntry, decodeEntry, decodeLinkData_encodeLinkData]
  | linkRemove ld addrs =>
    simp [encodeEntry, decodeEntry, decodeLinkData_encodeLinkData,
      decodeStrList_map_str]

theorem decodeAspect_encodeAspect (a : EntryAspect) :
    decodeAspect (encodeAspect a) = some a := by
  cases a with
  | Content e h =>
    simp [encodeAspect, decodeAspect, decodeEntry_encodeEntry,
      decodeHeader_encodeHeader]
  | Header h =>
    simp [encodeAspect, decodeAspect, decodeHeader_encodeHeader]
  | LinkAdd ld h =>
    simp [encodeAspect, decodeAspect, decodeLinkData_encodeLinkData,
      decodeHeader_encodeHeader]
  | LinkRemove p h =>
    obtain ⟨ld, addrs⟩ := p
    simp [encodeAspect, decodeAspect, decodeLinkData_encodeLinkData,
      decodeStrList_map_str, decodeHeader_encodeHeader]
  | Update e h =>
    simp [encodeAspect, decodeAspect, decodeEntry_encodeEntry,
      decodeHeader_encodeHeader]
  | Deletion h =>
    simp [encodeAspect, decodeAspect, decodeHeader_encodeHeader]

/-- `EntryAspectData` — the wire envelope of an aspect
(`lib3h_protocol::data_types`); the `aspect` byte vector is modelled by its
parsed JSON tree. -/
structure EntryAspectData where
  type_hint : String
  aspect_address : Address
  aspect : Json
  publish_ts : Nat

/-- `impl Into<EntryAspectData> for EntryAspect`: `type_hint` from
`type_hint()`, `aspect_address = self.address()` (the address of the
serialized content, computed by the deterministic `hash`), `aspect` the
serialized bytes, and `publish_ts` the header's timestamp converted to a
date-time and taken at whole seconds (`ts.timestamp() as u64`). -/
def toEntryAspectData (hash : Content → Address) (a : EntryAspect) :
    EntryAspectData :=
  { type_hint := a.type_hint
    aspect_address := hash (encodeAspect a)
    aspect := encodeAspect a
    publish_ts := a.header.timestamp.secs }

/-- C6: converting any EntryAspect to its wire form and decoding the aspect
bytes back preserves `type_hint`, `aspect_address` and `publish_ts` exactly;
in the wire form, `aspect_address` is the address of the aspect's serialized
content and `publish_ts` is the embedded header's timestamp in whole
seconds. -/
theorem C6_entry_aspect_wire_roundtrip (hash : Content → Address)
    (a : EntryAspect) :
    decodeAspect (toEntryAspectData hash a).aspect = some a ∧
    (toEntryAspectData hash a).type_hint = a.type_hint ∧
    (toEntryAspectData hash a).aspect_address = hash (encodeAspect a) ∧
    (toEntryAspectData hash a).publish_ts = a.header.timestamp.secs ∧
    (∀ b, decodeAspect (toEntryAspectData hash a).aspect = some b →
      toEntryAspectData hash b = toEntryAspectData hash a) := by
  refine ⟨decodeAspect_encodeAspect a, rfl, rfl, rfl, fun b hb => ?_⟩
  have ha : decodeAspect (toEntryAspectData hash a).aspect = some a :=
    decodeAspect_encodeAspect a
  cases Option.some.inj (hb.symm.trans ha)
  rfl

/-- Witness for C6 at a concrete aspect. -/
theorem C6_entry_aspect_wire_roundtrip_witness :
    toEntryAspectData (fun _ => "Qm")
      (EntryAspect.Header ⟨"%agent_id", ⟨1551383321, 500⟩, none⟩) =
      toEntryAspectData (fun _ => "Qm")
        (EntryAspect.Header ⟨"%agent_id", ⟨1551383321, 500⟩, none⟩) ∧
    (toEntryAspectData (fun _ => "Qm")
      (EntryAspect.Header ⟨"%agent_id", ⟨1551383321, 500⟩, none⟩)).publish_ts =
      1551383321 := by
  refine ⟨?_, (C6_entry_aspect_wire_roundtrip (fun _ => "Qm")
    (EntryAspect.Header ⟨"%agent_id", ⟨1551383321, 500⟩, none⟩)).2.2.2.1⟩
  exact (C6_entry_aspect_wire_roundtrip (fun _ => "Qm")
    (EntryAspect.Header ⟨"%agent_id", ⟨1551383321, 500⟩, none⟩)).2.2.2.2
    (EntryAspect.Header ⟨"%agent_id", ⟨1551383321, 500⟩, none⟩)
    (C6_entry_aspect_wire_roundtrip (fun _ => "Qm")
      (EntryAspect.Header ⟨"%agent_id", ⟨1551383321, 500⟩, none⟩)).1

/-! ## Aspect aggregation (`core/src/network/handler/mod.rs`)

`get_content_aspect` and `get_meta_aspects` read local state through
collaborators that are not among the provided sources
(`get_entry_with_meta`, `State::get_headers`, `Dht::get_all_metas`,
`get_entry_with_meta_workflow`); those are taken as parameters or modelled
from the spec where the claim depends on them.  Rust panics
(out-of-bounds indexing, `unwrap_to!`, `unreachable!`) are modelled by a
distinguished `panicked` outcome. -/

/-- `EntryWithMeta` as returned by `get_entry_with_meta`; the provided code
reads only its `entry` field. -/
structure EntryWithMeta where
  entry : Entry

/-- `EntryWithMetaAndTimeout` result of `get_entry_with_meta_workflow`; the
provided code reads `entry_with_meta.entry` and `headers`. -/
structure EntryWithMetaAndHeaders where
  entry_with_meta : EntryWithMeta
  headers : List ChainHeader

/-- Debug rendering of an error (`{:?}` in the log/format strings). -/
def HolochainError.fmtDebug : HolochainError → String
  | .EntryNotFoundLocally => "EntryNotFoundLocally"
  | .EntryIsPrivate => "EntryIsPrivate"
  | .ErrorGeneric m => "ErrorGeneric(\"" ++ m ++ "\")"
  | .Timeout => "Timeout"

/-- Outcome of `get_content_aspect`: an `Ok` aspect, an `Err`, or a Rust
panic (`headers[0]` on an empty header vector). -/
inductive GcaResult where
  | ok (a : EntryAspect)
  | err (e : HolochainError)
  | panicked

/-- Modelled from the spec: `State::get_headers` (the local header index) is
not among the provided sources; per §4.4 the content-aspect derivation
rejects with an error "if no headers are found locally for that address",
so the modelled index surfaces an empty header list as an error. -/
def get_headers (index : Address → List ChainHeader) (a : Address) :
    Except HolochainError (List ChainHeader) :=
  match index a with
  | [] => Except.error (HolochainError.ErrorGeneric "No headers found locally")
  | hs => Except.ok hs

/-- `get_content_aspect`: look the entry up locally (`None` means
`EntryNotFoundLocally`), reject the aspect with `EntryIsPrivate` when the
entry's type is not publishable, turn a header-lookup failure into a generic
error, and otherwise wrap the entry with the first header returned by the
local header index as `EntryAspect::Content`. -/
def get_content_aspect
    (getEntry : Address → Except HolochainError (Option EntryWithMeta))
    (canPublish : String → Bool)
    (index : Address → List ChainHeader) (entry_address : Address) :
    GcaResult :=
  match getEntry entry_address with
  | .error e => .err e
  | .ok none => .err .EntryNotFoundLocally
  | .ok (some ewm) =>
    if canPublish ewm.entry.entry_type then
      match get_headers index entry_address with
      | .error e =>
          .err (.ErrorGeneric
            ("net/fetch/get_content_aspect: Error trying to get headers " ++
              e.fmtDebug))
      | .ok [] => .panicked
      | .ok (h :: _) => .ok (.Content ewm.entry h)
    else .err .EntryIsPrivate

/-- C1: for every entry address, the content-aspect derivation returns
`EntryNotFoundLocally` when the entry is absent locally, `EntryIsPrivate`
when the entry's type is marked non-publishable, an error when no headers
are found locally for that address, and otherwise `EntryAspect::Content` of
the entry paired with the first header returned by the local header
index. -/
theorem C1_get_content_aspect_cases
    (getEntry : Address → Except HolochainError (Option EntryWithMeta))
    (canPublish : String → Bool)
    (index : Address → List ChainHeader) (a : Address) :
    (getEntry a = .ok none →
      get_content_aspect getEntry canPublish index a =
        .err .EntryNotFoundLocally) ∧
    (∀ ewm, getEntry a = .ok (some ewm) →
      canPublish ewm.entry.entry_type = false →
      get_content_aspect getEntry canPublish index a = .err .EntryIsPrivate) ∧
    (∀ ewm, getEntry a = .ok (some ewm) →
      canPublish ewm.entry.entry_type = true →
      index a = [] →
      ∃ msg, get_content_aspect getEntry canPublish index a =
        .err (.ErrorGeneric msg)) ∧
    (∀ ewm h rest, getEntry a = .ok (some ewm) →
      canPublish ewm.entry.entry_type = true →
      index a = h :: rest →
      get_content_aspect getEntry canPublish index a =
        .ok (.Content ewm.entry h)) := by
  refine ⟨fun h0 => ?_, fun ewm h0 hpub => ?_, fun ewm h0 hpub hidx => ?_,
    fun ewm h rest h0 hpub hidx => ?_⟩
  · simp [get_content_aspect, h0]
  · simp [get_content_aspect, h0, hpub]
  · refine ⟨"net/fetch/get_content_aspect: Error trying to get headers " ++
      (HolochainError.ErrorGeneric "No headers found locally").fmtDebug, ?_⟩
    simp [get_content_aspect, h0, hpub, get_headers, hidx]
  · simp [get_content_aspect, h0, hpub, get_headers, hidx]

/-- Witness for C1: a concrete publishable entry with one local header. -/
theorem C1_get_content_aspect_cases_witness :
    get_content_aspect
      (fun _ => Except.ok (some ⟨Entry.app "note" (Json.str "hi")⟩))
      (fun _ => true)
      (fun _ => [⟨"note", ⟨7, 0⟩, none⟩]) "QmEntry" =
      GcaResult.ok (EntryAspect.Content (Entry.app "note" (Json.str "hi"))
        ⟨"note", ⟨7, 0⟩, none⟩) := by
  exact (C1_get_content_aspect_cases
    (fun _ => Except.ok (some ⟨Entry.app "note" (Json.str "hi")⟩))
    (fun _ => true) (fun _ => [⟨"note", ⟨7, 0⟩, none⟩]) "QmEntry").2.2.2
    ⟨Entry.app "note" (Json.str "hi")⟩ ⟨"note", ⟨7, 0⟩, none⟩ [] rfl rfl rfl

/-- `eav::Attribute` — the closed attribute set of the EAV index; only the
variants matched by the provided code are distinguished (the catch-all
covers the rest).  The `attribute` field/accessor is spelled `attr` here
because `attribute` is reserved in Lean. -/
inductive Attribute where
  | LinkTag (link_type tag : String)
  | RemovedLink (link_type tag : String)
  | CrudLink
  | CrudStatus
  | EntryHeader
deriving DecidableEq, Repr

/-- An EAV triple as consumed by `get_meta_aspects` (`eavi.entity()`,
`eavi.attribute()`, `eavi.value()`). -/
structure Eavi where
  entity : Address
  attr : Attribute
  value : Address

/-- The attribute filter of `get_meta_aspects`: keep `LinkTag`,
`RemovedLink` and `CrudLink` triples, drop everything else. -/
def isMetaAttr : Attribute → Bool
  | .LinkTag _ _ => true
  | .RemovedLink _ _ => true
  | .CrudLink => true
  | _ => false

/-- Modelled from the spec: `Dht::get_all_metas` is not among the provided
sources; per §4.4 the meta derivation queries the EAV store for the triples
whose entity is the target address. -/
def get_all_metas (store : List Eavi) (a : Address) :
    Except HolochainError (List Eavi) :=
  Except.ok (store.filter (fun eavi => eavi.entity = a))

/-- Per-triple body of the `map` in `get_meta_aspects`: resolve the triple's
value address through the workflow (`None` is a hard error), take the first
header of the resolved entry (`headers[0]` panics when there is none,
modelled as the outer `none`), and wrap the entry by attribute kind —
`LinkTag` unwraps an `Entry::LinkAdd` (`unwrap_to!` panics otherwise) into
`EntryAspect::LinkAdd`, `RemovedLink` unwraps an `Entry::LinkRemove` into
`EntryAspect::LinkRemove`, `CrudLink` wraps the entry as
`EntryAspect::Update`; any other attribute is `unreachable!`. -/
def processEavi
    (resolve : Address → Except HolochainError (Option EntryWithMetaAndHeaders))
    (eavi : Eavi) : Option (Except HolochainError EntryAspect) :=
  match resolve eavi.value with
  | .error e => some (.error e)
  | .ok none => some (.error (.ErrorGeneric
      "Entry linked in EAV not found! This should never happen."))
  | .ok (some ve) =>
    match ve.headers with
    | [] => none
    | header :: _ =>
      match eavi.attr with
      | .LinkTag _ _ =>
        match ve.entry_with_meta.entry with
        | .linkAdd ld => some (.ok (.LinkAdd ld header))
        | _ => none
      | .RemovedLink _ _ =>
        match ve.entry_with_meta.entry with
        | .linkRemove ld removed => some (.ok (.LinkRemove (ld, removed) header))
        | _ => none
      | .CrudLink => some (.ok (.Update ve.entry_with_meta.entry header))
      | _ => none

/-- `Result::is_ok` on a per-triple result. -/
def exceptIsOk : Except HolochainError EntryAspect → Bool
  | .ok _ => true
  | .error _ => false

/-- `Result::unwrap` as used on the all-`Ok` partition. -/
def exceptToOk : Except HolochainError EntryAspect → Option EntryAspect
  | .ok a => some a
  | .error _ => none

/-- Outcome of `get_meta_aspects`. -/
inductive MetaResult where
  | ok (aspects : List EntryAspect)
  | err (e : HolochainError)
  | panicked

/-- `get_meta_aspects`: fetch the address's EAV triples, keep the
link/removed-link/crud-link ones, map each through `processEavi`, then
partition by `is_ok`; any error makes the whole computation return the
first error, otherwise the unwrapped aspect list is returned. -/
def get_meta_aspects
    (resolve : Address → Except HolochainError (Option EntryWithMetaAndHeaders))
    (store : List Eavi) (entry_address : Address) : MetaResult :=
  match get_all_metas store entry_address with
  | .error e => .err e
  | .ok eavis =>
    match (eavis.filter (fun eavi => isMetaAttr eavi.attr)).mapM
        (processEavi resolve) with
    | none => .panicked
    | some results =>
      match (results.partition exceptIsOk).2 with
      | [] => .ok ((results.partition exceptIsOk).1.filterMap exceptToOk)
      | .error e :: _ => .err e
      | .ok _ :: _ => .panicked

theorem partition_snd_head (results : List (Except HolochainError EntryAspect)) :
    (results.partition exceptIsOk).2.head? =
      results.find? (fun r => !exceptIsOk r) := by
  induction results with
  | nil => rfl
  | cons r rest ih =>
    rw [List.partition_eq_filter_filter] at ih ⊢
    cases hr : exceptIsOk r <;> simp [List.filter, List.find?, hr, ih]

theorem filterMap_filter_isOk (l : List (Except HolochainError EntryAspect)) :
    (l.filter exceptIsOk).filterMap exceptToOk = l.filterMap exceptToOk := by
  induction l with
  | nil => rfl
  | cons r rest ih =>
    cases r <;> simp [exceptIsOk, exceptToOk, ih]

/-- C2: the meta-aspect derivation considers exactly the EAV triples of the
entity whose attribute is `LinkTag`, `RemovedLink` or `CrudLink`; each
resolved value entry maps to `LinkAdd`, `LinkRemove` or `Update`
respectively, a triple whose value cannot be resolved yields a hard error,
and if any resolution fails the whole computation returns the first error
encountered, otherwise the full aspect list. -/
theorem C2_get_meta_aspects
    (resolve : Address → Except HolochainError (Option EntryWithMetaAndHeaders))
    (store : List Eavi) (a : Address) :
    get_meta_aspects resolve store a =
      get_meta_aspects resolve
        (store.filter
          (fun eavi => decide (eavi.entity = a) && isMetaAttr eavi.attr)) a ∧
    (∀ eavi, resolve eavi.value = .ok none →
      processEavi resolve eavi = some (.error (.ErrorGeneric
        "Entry linked in EAV not found! This should never happen."))) ∧
    (∀ eavi lt tg ve h rest ld, eavi.attr = .LinkTag lt tg →
      resolve eavi.value = .ok (some ve) → ve.headers = h :: rest →
      ve.entry_with_meta.entry = .linkAdd ld →
      processEavi resolve eavi = some (.ok (.LinkAdd ld h))) ∧
    (∀ eavi lt tg ve h rest ld removed, eavi.attr = .RemovedLink lt tg →
      resolve eavi.value = .ok (some ve) → ve.headers = h :: rest →
      ve.entry_with_meta.entry = .linkRemove ld removed →
      processEavi resolve eavi = some (.ok (.LinkRemove (ld, removed) h))) ∧
    (∀ eavi ve h rest, eavi.attr = .CrudLink →
      resolve eavi.value = .ok (some ve) → ve.headers = h :: rest →
      processEavi resolve eavi =
        some (.ok (.Update ve.entry_with_meta.entry h))) ∧
    (∀ results,
      ((store.filter (fun eavi => eavi.entity = a)).filter
          (fun eavi => isMetaAttr eavi.attr)).mapM (processEavi resolve) =
        some results →
      (results.find? (fun r => !exceptIsOk r) = none →
        get_meta_aspects resolve store a =
          .ok (results.filterMap exceptToOk)) ∧
      (∀ e, results.find? (fun r => !exceptIsOk r) = some (.error e) →
        get_meta_aspects resolve store a = .err e)) := by
  refine ⟨?_, ?_, ?_, ?_, ?_, ?_⟩
  · have hf : (store.filter (fun eavi => decide (eavi.entity = a))).filter
        (fun eavi => isMetaAttr eavi.attr) =
        ((store.filter
          (fun eavi => decide (eavi.entity = a) && isMetaAttr eavi.attr)).filter
            (fun eavi => decide (eavi.entity = a))).filter
          (fun eavi => isMetaAttr eavi.attr) := by
      simp only [List.filter_filter]
      refine List.filter_congr fun e _ => ?_
      cases hpa : decide (e.entity = a) <;>
        cases hpm : isMetaAttr e.attr <;> simp [hpa, hpm]
    simp only [get_meta_aspects, get_all_metas]
    rw [hf]
  · intro eavi h0
    simp [processEavi, h0]
  · intro eavi lt tg ve h rest ld hattr h0 hhdr hentry
    simp [processEavi, h0, hhdr, hattr, hentry]
  · intro eavi lt tg ve h rest ld removed hattr h0 hhdr hentry
    simp [processEavi, h0, hhdr, hattr, hentry]
  · intro eavi ve h rest hattr h0 hhdr
    simp [processEavi, h0, hhdr, hattr]
  · intro results hmap
    constructor
    · intro hfind
      have hnil : (results.partition exceptIsOk).2 = [] := by
        have hhead : (results.partition exceptIsOk).2.head? = none := by
          rw [partition_snd_head, hfind]
        exact List.head?_eq_none_iff.mp hhead
      simp only [get_meta_aspects, get_all_metas, hmap, hnil]
      simp [List.partition_eq_filter_filter, filterMap_filter_isOk]
    · intro e hfind
      have hhead : (results.partition exceptIsOk).2.head? = some (.error e) := by
        rw [partition_snd_head, hfind]
      cases hpart : (results.partition exceptIsOk).2 with
      | nil => rw [hpart] at hhead; simp at hhead
      | cons r t =>
        rw [hpart] at hhead
        have hr : r = .error e := by simpa using hhead
        subst hr
        simp only [get_meta_aspects, get_all_metas, hmap, hpart]

/-- Witness for C2: one `LinkTag` triple whose value resolves to a
`LinkAdd` entry yields exactly one `LinkAdd` aspect. -/
theorem C2_get_meta_aspects_witness :
    processEavi
      (fun _ => Except.ok (some ⟨⟨Entry.linkAdd ⟨"ADD", ⟨"base", "tgt", "t", "tag"⟩⟩⟩,
        [⟨"%link_add", ⟨5, 0⟩, none⟩]⟩))
      ⟨"base", Attribute.LinkTag "t" "tag", "QmLink"⟩ =
      some (Except.ok (EntryAspect.LinkAdd ⟨"ADD", ⟨"base", "tgt", "t", "tag"⟩⟩
        ⟨"%link_add", ⟨5, 0⟩, none⟩)) ∧
    get_meta_aspects
      (fun _ => Except.ok (some ⟨⟨Entry.linkAdd ⟨"ADD", ⟨"base", "tgt", "t", "tag"⟩⟩⟩,
        [⟨"%link_add", ⟨5, 0⟩, none⟩]⟩))
      [⟨"base", Attribute.LinkTag "t" "tag", "QmLink"⟩] "base" =
      MetaResult.ok [EntryAspect.LinkAdd ⟨"ADD", ⟨"base", "tgt", "t", "tag"⟩⟩
        ⟨"%link_add", ⟨5, 0⟩, none⟩] := by
  constructor
  · exact (C2_get_meta_aspects
      (fun _ => Except.ok (some ⟨⟨Entry.linkAdd ⟨"ADD", ⟨"base", "tgt", "t", "tag"⟩⟩⟩,
        [⟨"%link_add", ⟨5, 0⟩, none⟩]⟩))
      [⟨"base", Attribute.LinkTag "t" "tag", "QmLink"⟩] "base").2.2.1
      ⟨"base", Attribute.LinkTag "t" "tag", "QmLink"⟩ "t" "tag"
      ⟨⟨Entry.linkAdd ⟨"ADD", ⟨"base", "tgt", "t", "tag"⟩⟩⟩,
        [⟨"%link_add", ⟨5, 0⟩, none⟩]⟩
      ⟨"%link_add", ⟨5, 0⟩, none⟩ [] ⟨"ADD", ⟨"base", "tgt", "t", "tag"⟩⟩
      rfl rfl rfl rfl
  · have h := ((C2_get_meta_aspects
      (fun _ => Except.ok (some ⟨⟨Entry.linkAdd ⟨"ADD", ⟨"base", "tgt", "t", "tag"⟩⟩⟩,
        [⟨"%link_add", ⟨5, 0⟩, none⟩]⟩))
      [⟨"base", Attribute.LinkTag "t" "tag", "QmLink"⟩] "base").2.2.2.2.2
      [Except.ok (EntryAspect.LinkAdd ⟨"ADD", ⟨"base", "tgt", "t", "tag"⟩⟩
        ⟨"%link_add", ⟨5, 0⟩, none⟩)] rfl).1 rfl
    simpa [exceptToOk] using h

/-! ## Network message router (`create_handler` in handler/mod.rs)

The handler closure receives one wire message per call, decodes it into the
`Lib3hServerProtocol` variant set, filters by space (`is_my_dna`) and agent
identity (`is_my_id`), and dispatches to the per-kind handler functions
(whose bodies live in `handler/{store,fetch,query,send,lists}.rs`, not
among the provided sources — they are abstract state transformers here).
The `.unwrap()` calls of `format_store_data`/`format_message_data` on
undecodable embedded payloads are modelled as a `panicked` outcome. -/

inductive LogLevel where
  | debug
  | warn
  | err
deriving DecidableEq, Repr

abbrev LogEntry := LogLevel × String

structure GenericResultData where
  space_address : String

structure StoreEntryAspectData where
  request_id : String
  space_address : String
  provider_agent_id : String
  entry_address : Address
  entry_aspect : EntryAspectData

structure FetchEntryData where
  space_address : String
  entry_address : Address

structure FetchEntryResultData where
  space_address : String

structure QueryEntryData where
  space_address : String
  entry_address : Address

structure QueryEntryResultData where
  space_address : String
  requester_agent_id : String

structure DirectMessageData where
  space_address : String
  request_id : String
  to_agent_id : String
  from_agent_id : String
  content : Json

structure GetListData where
  space_address : String
  provider_agent_id : String

/-- The protocol-server message variants matched by `create_handler`; the
source's catch-all `_` arm is `OtherMessage`. -/
inductive Lib3hServerProtocol where
  | FailureResult (d : GenericResultData)
  | HandleStoreEntryAspect (d : StoreEntryAspectData)
  | HandleFetchEntry (d : FetchEntryData)
  | FetchEntryResult (d : FetchEntryResultData)
  | HandleQueryEntry (d : QueryEntryData)
  | QueryEntryResult (d : QueryEntryResultData)
  | HandleSendDirectMessage (d : DirectMessageData)
  | SendDirectMessageResult (d : DirectMessageData)
  | Connected
  | HandleGetAuthoringEntryList (d : GetListData)
  | HandleGetGossipingEntryList (d : GetListData)
  | OtherMessage

/-- `is_my_dna`: plain equality of the node's DNA address with the
message's space address. -/
def is_my_dna (my_dna_address dna_address : String) : Bool :=
  my_dna_address = dna_address

/-- `is_my_id`: returns false only when the agent id is non-empty and
differs from this node's public signing key. -/
def is_my_id (pub_sign_key agent_id : String) : Bool :=
  if agent_id ≠ "" && pub_sign_key ≠ agent_id then false else true

/-- Modelled from the spec: `DirectMessage` (`network/direct_message.rs`) is
not among the provided sources; per §4.5/§6 it is an opaque message payload
decoded from the wire content, and decoding can fail. -/
inductive DirectMessage where
  | custom (payload : Json)
  | requestValidationPackage (address : Address)

def decodeDirectMessage : Json → Option DirectMessage
  | Json.arr [Json.str "Custom", j] => some (.custom j)
  | Json.arr [Json.str "RequestValidationPackage", Json.str a] =>
      some (.requestValidationPackage a)
  | _ => none

def optAddrDebug : Option Address → String
  | none => "None"
  | some s => "Some(HashString(\"" ++ s ++ "\"))"

/-- `format_header`. -/
def format_header (h : ChainHeader) : String :=
  "Header[type: " ++ h.entry_type ++ ", crud_link: " ++
    optAddrDebug h.link_update_delete ++ "]"

/-- The `fmt::Debug` rendering of an `EntryAspect`; entry positions print
the entry's address (the hash of its serialized content). -/
def aspectDebug (hash : Content → Address) : EntryAspect → String
  | .Content e h =>
      "EntryAspect::Content(" ++ hash (encodeEntry e) ++ ", " ++
        format_header h ++ ")"
  | .Header h => "EntryAspect::Header(" ++ format_header h ++ ")"
  | .LinkAdd ld h =>
      "EntryAspect::LinkAdd(" ++ ld.link.base ++ " -> " ++ ld.link.target ++
        " [tag: " ++ ld.link.tag ++ ", type: " ++ ld.link.link_type ++ "], " ++
        format_header h ++ ")"
  | .LinkRemove (ld, _) h =>
      "EntryAspect::LinkRemove(" ++ ld.link.base ++ " -> " ++ ld.link.target ++
        " [tag: " ++ ld.link.tag ++ ", type: " ++ ld.link.link_type ++ "], " ++
        format_header h ++ ")"
  | .Update e h =>
      "EntryAspect::Update(" ++ hash (encodeEntry e) ++ ", " ++
        format_header h ++ ")"
  | .Deletion h => "EntryAspect::Deletion(" ++ format_header h ++ ")"

/-- `format_store_data`: deserializes the embedded `EntryAspect` explicitly
(`String::from_utf8(..).unwrap()` / `EntryAspect::try_from(..).unwrap()`),
so an undecodable aspect payload is a panic — modelled as `none`. -/
def format_store_data (hash : Content → Address) (data : StoreEntryAspectData) :
    Option String :=
  (decodeAspect data.entry_aspect.aspect).map (fun aspect =>
    "\nStoreEntryAspectData \x7b\n    request_id: \"" ++ data.request_id ++
    "\",\n    dna_address: \"" ++ data.space_address ++
    "\",\n    provider_agent_id: \"" ++ data.provider_agent_id ++
    "\",\n    entry_address: \"" ++ data.entry_address ++
    "\",\n    entry_aspect: \x7b\n        aspect_address: \"" ++
    data.entry_aspect.aspect_address ++
    "\",\n        type_hint: \"" ++ data.entry_aspect.type_hint ++
    "\",\n        aspect: \"" ++ aspectDebug hash aspect ++
    "\"\n    \x7d\n\x7d")

def directMessageDebug : DirectMessage → String
  | .custom _ => "Custom(CustomDirectMessage)"
  | .requestValidationPackage a =>
      "RequestValidationPackage(HashString(\"" ++ a ++ "\"))"

/-- `format_message_data`: deserializes the embedded `DirectMessage`
(`DirectMessage::try_from(..).unwrap()`), so an undecodable content is a
panic — modelled as `none`. -/
def format_message_data (data : DirectMessageData) : Option String :=
  (decodeDirectMessage data.content).map (fun message =>
    "\nMessageData \x7b\n    request_id: \"" ++ data.request_id ++
    "\",\n    dna_address: \"" ++ data.space_address ++
    "\",\n    to_agent_id: \"" ++ data.to_agent_id ++
    "\",\n    from_agent_id: \"" ++ data.from_agent_id ++
    "\",\n    content: " ++ directMessageDebug message ++ ",\n\x7d")

/-- The per-kind handler functions dispatched to by the router closure
(`handle_store`, `handle_fetch_entry`, …); their bodies are not among the
provided sources, so they are abstract transformers of the node state σ. -/
structure Handlers (σ : Type) where
  handle_store : StoreEntryAspectData → σ → σ
  handle_fetch_entry : FetchEntryData → σ → σ
  handle_query_entry_data : QueryEntryData → σ → σ
  handle_query_entry_result : QueryEntryResultData → σ → σ
  handle_send_message : DirectMessageData → σ → σ
  handle_send_message_result : DirectMessageData → σ → σ
  handle_get_authoring_list : GetListData → σ → σ
  handle_get_gossip_list : GetListData → σ → σ

inductive Outcome where
  | ok
  | panicked
deriving DecidableEq, Repr

/-- Result of one invocation of the handler closure: the node state after
the call, the log lines emitted by the closure itself, and whether the call
returned `Ok(())` or panicked. -/
structure DispatchResult (σ : Type) where
  state : σ
  logs : List LogEntry
  outcome : Outcome

def debugQER (d : QueryEntryResultData) : String :=
  "QueryEntryResultData(space_address: \"" ++ d.space_address ++
    "\", requester_agent_id: \"" ++ d.requester_agent_id ++ "\")"

def debugFED (d : FetchEntryData) : String :=
  "FetchEntryData(space_address: \"" ++ d.space_address ++
    "\", entry_address: \"" ++ d.entry_address ++ "\")"

def debugQED (d : QueryEntryData) : String :=
  "QueryEntryData(space_address: \"" ++ d.space_address ++
    "\", entry_address: \"" ++ d.entry_address ++ "\")"

/-- The body of the closure built by `create_handler`, invoked once per
inbound wire message.  `message` is the result of
`Lib3hServerProtocol::try_from` on the raw message: a decode failure makes
the closure return `Ok(())` immediately. -/
def handleMessage {σ : Type} (hash : Content → Address)
    (my_dna_address pub_sign_key : String) (hs : Handlers σ) (st : σ)
    (message : Except Unit Lib3hServerProtocol) : DispatchResult σ :=
  match message with
  | .error _ => ⟨st, [], .ok⟩
  | .ok msg =>
    match msg with
    | .FailureResult d =>
      if !is_my_dna my_dna_address d.space_address then ⟨st, [], .ok⟩
      else ⟨st, [(.warn, "net/handle: FailureResult: FailureResultData(space_address: \"" ++
        d.space_address ++ "\")")], .ok⟩
    | .HandleStoreEntryAspect d =>
      if !is_my_dna my_dna_address d.space_address then ⟨st, [], .ok⟩
      else
        match format_store_data hash d with
        | none => ⟨st, [], .panicked⟩
        | some s =>
          ⟨hs.handle_store d st,
            [(.debug, "net/handle: HandleStoreEntryAspect: " ++ s)], .ok⟩
    | .HandleFetchEntry d =>
      if !is_my_dna my_dna_address d.space_address then ⟨st, [], .ok⟩
      else ⟨hs.handle_fetch_entry d st,
        [(.debug, "net/handle: HandleFetchEntry: " ++ debugFED d)], .ok⟩
    | .FetchEntryResult d =>
      if !is_my_dna my_dna_address d.space_address then ⟨st, [], .ok⟩
      else ⟨st, [(.err, "net/handle: unexpected HandleFetchEntryResult: FetchEntryResultData(space_address: \"" ++
        d.space_address ++ "\")")], .ok⟩
    | .HandleQueryEntry d =>
      if !is_my_dna my_dna_address d.space_address then ⟨st, [], .ok⟩
      else ⟨hs.handle_query_entry_data d st,
        [(.debug, "net/handle: HandleQueryEntry: " ++ debugQED d)], .ok⟩
    | .QueryEntryResult d =>
      if !is_my_dna my_dna_address d.space_address then ⟨st, [], .ok⟩
      else if !is_my_id pub_sign_key d.requester_agent_id then ⟨st, [], .ok⟩
      else ⟨hs.handle_query_entry_result d st,
        [(.debug, "net/handle: HandleQueryEntryResult: " ++ debugQER d)], .ok⟩
    | .HandleSendDirectMessage d =>
      if !is_my_dna my_dna_address d.space_address then ⟨st, [], .ok⟩
      else if !is_my_id pub_sign_key d.to_agent_id then ⟨st, [], .ok⟩
      else
        match format_message_data d with
        | none => ⟨st, [], .panicked⟩
        | some s =>
          ⟨hs.handle_send_message d st,
            [(.debug, "net/handle: HandleSendMessage: " ++ s)], .ok⟩
    | .SendDirectMessageResult d =>
      if !is_my_dna my_dna_address d.space_address then ⟨st, [], .ok⟩
      else if !is_my_id pub_sign_key d.to_agent_id then ⟨st, [], .ok⟩
      else
        match format_message_data d with
        | none => ⟨st, [], .panicked⟩
        | some s =>
          ⟨hs.handle_send_message_result d st,
            [(.debug, "net/handle: SendMessageResult: " ++ s)], .ok⟩
    | .Connected => ⟨st, [(.debug, "net/handle: Connected: PeerData")], .ok⟩
    | .HandleGetAuthoringEntryList d =>
      if !is_my_dna my_dna_address d.space_address then ⟨st, [], .ok⟩
      else if !is_my_id pub_sign_key d.provider_agent_id then ⟨st, [], .ok⟩
      else ⟨hs.handle_get_authoring_list d st, [], .ok⟩
    | .HandleGetGossipingEntryList d =>
      if !is_my_dna my_dna_address d.space_address then ⟨st, [], .ok⟩
      else if !is_my_id pub_sign_key d.provider_agent_id then ⟨st, [], .ok⟩
      else ⟨hs.handle_get_gossip_list d st, [], .ok⟩
    | .OtherMessage => ⟨st, [], .ok⟩

/-- A concrete handler set over a counter state: every handler bumps the
counter, so any dispatch is visible in the state. -/
def countingHandlers : Handlers Nat :=
  ⟨fun _ n => n + 1, fun _ n => n + 1, fun _ n => n + 1, fun _ n => n + 1,
   fun _ n => n + 1, fun _ n => n + 1, fun _ n => n + 1, fun _ n => n + 1⟩

/-- C7: a `StoreEntryAspect` message whose space address differs from this
node's DNA address produces no storage mutation (the state is unchanged no
matter what the handlers do), surfaces no error, and emits no log line at
any level: it is dropped before its handler runs. -/
theorem C7_space_mismatch_store_dropped {σ : Type} (hash : Content → Address)
    (my_dna pub_key : String) (hs : Handlers σ) (st : σ)
    (d : StoreEntryAspectData) (hmis : d.space_address ≠ my_dna) :
    handleMessage hash my_dna pub_key hs st
      (.ok (.HandleStoreEntryAspect d)) = ⟨st, [], .ok⟩ := by
  have hdna : is_my_dna my_dna d.space_address = false := by
    simp only [is_my_dna, decide_eq_false_iff_not]
    exact fun h => hmis h.symm
  simp [handleMessage, hdna]

/-- Witness for C7 at a concrete mismatched message. -/
theorem C7_space_mismatch_store_dropped_witness :
    ("other" : String) ≠ "mine" ∧
    handleMessage (fun _ => "h") "mine" "me" countingHandlers 0
      (.ok (.HandleStoreEntryAspect
        ⟨"req1", "other", "prov", "QmE", ⟨"content", "QmA", Json.str "x", 0⟩⟩)) =
      ⟨0, [], Outcome.ok⟩ := by
  refine ⟨by decide, ?_⟩
  exact C7_space_mismatch_store_dropped (fun _ => "h") "mine" "me"
    countingHandlers 0
    ⟨"req1", "other", "prov", "QmE", ⟨"content", "QmA", Json.str "x", 0⟩⟩
    (by decide)

/-- C8 (amended): if decoding the raw message into the protocol-message
variant set fails, the handler closure returns `Ok` without invoking a
handler, mutating state, logging, or surfacing an error.  (The original
claim's stronger clause — that no malformed message, including one with an
undecodable embedded aspect payload, can make the dispatch panic — is
refuted by the counterexample below.) -/
theorem C8_decode_failure_silently_dropped {σ : Type}
    (hash : Content → Address) (my_dna pub_key : String) (hs : Handlers σ)
    (st : σ) :
    handleMessage hash my_dna pub_key hs st (.error ()) = ⟨st, [], .ok⟩ := rfl

/-- C8 counterexample: a well-formed `StoreEntryAspect` message addressed to
this node whose embedded aspect payload bytes do not decode as an
`EntryAspect` makes the per-message dispatch panic (the `.unwrap()` inside
`format_store_data`), so not every malformed message is non-fatal. -/
theorem C8_malformed_aspect_payload_panics :
    (handleMessage (fun _ => "h") "dna" "me" countingHandlers 0
      (.ok (.HandleStoreEntryAspect
        ⟨"req1", "dna", "prov", "QmE",
          ⟨"content", "QmA", Json.str "garbage", 0⟩⟩))).outcome =
      Outcome.panicked := rfl

/-- C9: an empty-string agent identifier passes the identity filter —
`is_my_id` returns true on the empty string regardless of the node's key —
so a query result, a direct-message result, or a list request carrying an
empty target agent id is dispatched to its handler as if addressed to this
node. -/
theorem C9_empty_agent_id_passes_filter {σ : Type} (hash : Content → Address)
    (my_dna pub_key : String) (hs : Handlers σ) (st : σ) :
    (∀ key : String, is_my_id key "" = true) ∧
    (∀ d : QueryEntryResultData, d.space_address = my_dna →
      d.requester_agent_id = "" →
      (handleMessage hash my_dna pub_key hs st
        (.ok (.QueryEntryResult d))).state = hs.handle_query_entry_result d st ∧
      (handleMessage hash my_dna pub_key hs st
        (.ok (.QueryEntryResult d))).outcome = .ok) ∧
    (∀ d : DirectMessageData, d.space_address = my_dna → d.to_agent_id = "" →
      ∀ m, decodeDirectMessage d.content = some m →
      (handleMessage hash my_dna pub_key hs st
        (.ok (.SendDirectMessageResult d))).state =
        hs.handle_send_message_result d st ∧
      (handleMessage hash my_dna pub_key hs st
        (.ok (.SendDirectMessageResult d))).outcome = .ok) ∧
    (∀ d : GetListData, d.space_address = my_dna → d.provider_agent_id = "" →
      handleMessage hash my_dna pub_key hs st
        (.ok (.HandleGetAuthoringEntryList d)) =
        ⟨hs.handle_get_authoring_list d st, [], .ok⟩) := by
  refine ⟨fun key => by simp [is_my_id], ?_, ?_, ?_⟩
  · intro d hsp hreq
    constructor <;> simp [handleMessage, is_my_dna, is_my_id, hsp, hreq]
  · intro d hsp hto m hm
    constructor <;>
      simp [handleMessage, is_my_dna, is_my_id, hsp, hto,
        format_message_data, hm]
  · intro d hsp hprov
    simp [handleMessage, is_my_dna, is_my_id, hsp, hprov]

/-- Witness for C9 at concrete empty-id messages. -/
theorem C9_empty_agent_id_passes_filter_witness :
    is_my_id "somekey" "" = true ∧
    (handleMessage (fun _ => "h") "dna" "me" countingHandlers 0
      (.ok (.QueryEntryResult ⟨"dna", ""⟩))).state = 1 ∧
    handleMessage (fun _ => "h") "dna" "me" countingHandlers 0
      (.ok (.HandleGetAuthoringEntryList ⟨"dna", ""⟩)) =
      ⟨1, [], Outcome.ok⟩ := by
  refine ⟨(C9_empty_agent_id_passes_filter (fun _ => "h") "dna" "me"
    countingHandlers 0).1 "somekey", ?_, ?_⟩
  · exact ((C9_empty_agent_id_passes_filter (fun _ => "h") "dna" "me"
      countingHandlers 0).2.1 ⟨"dna", ""⟩ rfl rfl).1
  · exact (C9_empty_agent_id_passes_filter (fun _ => "h") "dna" "me"
      countingHandlers 0).2.2.2 ⟨"dna", ""⟩ rfl rfl

end Holochain
